import Mathlib

/-
Shallow embedding of src/aia_generator.py: the pseudocode-to-component-tree
compiler.  Python dicts are modelled as insertion-ordered association lists
(keys are unique in every reachable state, mirroring dict semantics), the
regex templates as explicit character-list matchers with re.match prefix
semantics, and random.randint as an explicit supply of numbers passed in.
-/

namespace AiaGen

/-- A property value in a component dict: Python str or int. -/
inductive Value where
  | str (s : String)
  | int (n : Int)
deriving DecidableEq

/-- A component dict: insertion-ordered key/value pairs ($Name, $Type, Text, ...). -/
abbrev Component := List (String × Value)

/-- Dict lookup: first (unique) binding of key k. -/
def lookupKey : Component → String → Option Value
  | [], _ => none
  | (k', v) :: rest, k => if k' = k then some v else lookupKey rest k

/-- Python `k in d`. -/
def hasKey (c : Component) (k : String) : Bool :=
  (lookupKey c k).isSome

/-- Python `d[k] = v`: replace in place if present, else append at the end. -/
def setKey : Component → String → Value → Component
  | [], k, v => [(k, v)]
  | (k', v') :: rest, k, v =>
      if k' = k then (k, v) :: rest else (k', v') :: setKey rest k v

/-- Python `del d[k]` (keys are unique, so filtering = removing the binding). -/
def delKey (c : Component) (k : String) : Component :=
  c.filter (fun p => p.1 ≠ k)

/-- `comp["$Name"]`. -/
def compName (c : Component) : Option Value :=
  lookupKey c "$Name"

/-- Python `name in name_to_component`: the map holds every name ever added. -/
def declared (cs : List Component) (n : String) : Bool :=
  cs.any (fun c => decide (compName c = some (.str n)))

/-- Mutating the object `name_to_component[n]` points at: the binding is always
to the most recently added component with that name, an object shared with the
list, so the update hits the last list entry named n. -/
def updLast : List Component → String → (Component → Component) → List Component
  | [], _, _ => []
  | c :: rest, n, f =>
      if declared rest n then c :: updLast rest n f
      else if compName c = some (.str n) then f c :: rest
      else c :: updLast rest n f

/-! ### Character-level matchers for the regex templates -/

/-- `[A-Za-z0-9_]`. -/
def isIdentChar (c : Char) : Bool :=
  c.isAlphanum || c == '_'

/-- ASCII whitespace stripped by Python str.strip and matched by `\s`. -/
def isPyWhitespace (c : Char) : Bool :=
  c == ' ' || c == '\t' || c == '\n' || c == '\r' || c == '\x0b' || c == '\x0c'

/-- Python str.strip(): drop whitespace at both ends. -/
def pyStrip (l : List Char) : List Char :=
  ((l.dropWhile isPyWhitespace).reverse.dropWhile isPyWhitespace).reverse

/-- Match a literal pattern at the head of the input, returning the remainder. -/
def matchLit : List Char → List Char → Option (List Char)
  | [], s => some s
  | _ :: _, [] => none
  | p :: ps, c :: cs => if p == c then matchLit ps cs else none

/-- `line.startswith(p)`. -/
def startsWith (p : List Char) (l : List Char) : Bool :=
  (matchLit p l).isSome

/-- Substring test (for Python `'percent' in width.lower()`). -/
def isSubstring (pat : List Char) : List Char → Bool
  | [] => pat.isEmpty
  | c :: rest => (matchLit pat (c :: rest)).isSome || isSubstring pat rest

/-- `'percent' in width.lower()`. -/
def containsPercent (raw : List Char) : Bool :=
  isSubstring "percent".toList (raw.map Char.toLower)

/-- Numeric value of a run of decimal digits. -/
def digitsVal (l : List Char) : Nat :=
  l.foldl (fun n c => 10 * n + (c.toNat - 48)) 0

/-- First maximal digit run, if any (`re.search(r'(\d+)', s)`). -/
def firstDigitRun : List Char → Option (List Char)
  | [] => none
  | c :: rest =>
      if c.isDigit then some ((c :: rest).takeWhile Char.isDigit)
      else firstDigitRun rest

/-- `int(re.search(r'(\d+)', s).group(1))`, None when no digit occurs. -/
def extractInt (l : List Char) : Option Nat :=
  (firstDigitRun l).map digitsVal

/-- `re.match(r'Add <kind> \(Name: ([A-Za-z0-9_]+)\)', line)` (prefix semantics:
text after the closing parenthesis is ignored). -/
def matchAdd (kind : String) (l : List Char) : Option String :=
  match matchLit ("Add " ++ kind ++ " (Name: ").toList l with
  | none => none
  | some rest =>
      let name := rest.takeWhile isIdentChar
      let rest2 := rest.dropWhile isIdentChar
      if name.isEmpty then none
      else
        match rest2 with
        | ')' :: _ => some (String.mk name)
        | _ => none

/-- `re.match(r'Set ([A-Za-z0-9_]+)\.Text to "([^"]*)"', line)`. -/
def matchSetText (l : List Char) : Option (String × String) :=
  match matchLit "Set ".toList l with
  | none => none
  | some rest =>
      let name := rest.takeWhile isIdentChar
      let rest2 := rest.dropWhile isIdentChar
      if name.isEmpty then none
      else
        match matchLit ".Text to \"".toList rest2 with
        | none => none
        | some rest3 =>
            let txt := rest3.takeWhile (fun c => c != '"')
            match rest3.dropWhile (fun c => c != '"') with
            | '"' :: _ => some (String.mk name, String.mk txt)
            | _ => none

/-- `re.match(r'Set ([A-Za-z0-9_]+)\.<prop> to (.+)', line)`: the raw value is
the whole remainder of the line, required nonempty. -/
def matchSetRaw (prop : String) (l : List Char) : Option (String × List Char) :=
  match matchLit "Set ".toList l with
  | none => none
  | some rest =>
      let name := rest.takeWhile isIdentChar
      let rest2 := rest.dropWhile isIdentChar
      if name.isEmpty then none
      else
        match matchLit ("." ++ prop ++ " to ").toList rest2 with
        | none => none
        | some raw => if raw.isEmpty then none else some (String.mk name, raw)

/-- The classified form of one stripped line. -/
inductive Stmt where
  | addButton (name : String)
  | addLabel (name : String)
  | setText (name text : String)
  | setWidth (name : String) (raw : List Char)
  | setHeight (name : String) (raw : List Char)
  | noMatch
deriving DecidableEq

/-- The ordered template matching of parse_pseudocode's if-chain. -/
def classify (l : List Char) : Stmt :=
  match matchAdd "Button" l with
  | some n => .addButton n
  | none =>
    match matchAdd "Label" l with
    | some n => .addLabel n
    | none =>
      match matchSetText l with
      | some (n, t) => .setText n t
      | none =>
        match matchSetRaw "Width" l with
        | some (n, r) => .setWidth n r
        | none =>
          match matchSetRaw "Height" l with
          | some (n, r) => .setHeight n r
          | none => .noMatch

/-- Kind defaults for `Add Button (Name: name)` (source line 19). -/
def buttonDefaults (name : String) : Component :=
  [("$Name", .str name), ("$Type", .str "Button"), ("Text", .str name),
   ("WidthPercent", .int 80), ("Height", .int 50), ("BackgroundColor", .int (-16776961)),
   ("TextColor", .int (-1)), ("FontSize", .int 16)]

/-- Kind defaults for `Add Label (Name: name)` (source line 27). -/
def labelDefaults (name : String) : Component :=
  [("$Name", .str name), ("$Type", .str "Label"), ("Text", .str name),
   ("Width", .int (-2)), ("FontSize", .int 18), ("TextAlignment", .int 1)]

/-- One step of parse_pseudocode's loop body on the classified statement.
Add always appends (no duplicate check in the source); Set statements guard on
membership in name_to_component, except Height whose unguarded dict access is
wrapped in try/except so an undeclared name is also a silent no-op. -/
def applyStmt (cs : List Component) : Stmt → List Component
  | .addButton n => cs ++ [buttonDefaults n]
  | .addLabel n => cs ++ [labelDefaults n]
  | .setText n t =>
      if declared cs n then updLast cs n (fun c => setKey c "Text" (.str t)) else cs
  | .setWidth n r =>
      if declared cs n then
        if containsPercent r then
          match extractInt r with
          | some v => updLast cs n (fun c => setKey c "WidthPercent" (.int v))
          | none => cs
        else
          match extractInt r with
          | some v => updLast cs n (fun c => setKey c "Width" (.int v))
          | none => cs
      else cs
  | .setHeight n r =>
      match extractInt r with
      | some v =>
          if declared cs n then updLast cs n (fun c => setKey c "Height" (.int v)) else cs
      | none => cs
  | .noMatch => cs

/-- Process one raw line: strip, classify, apply. -/
def parseLine (cs : List Component) (line : List Char) : List Component :=
  applyStmt cs (classify (pyStrip line))

/-- Line terminators recognised by Python str.splitlines. -/
def isLineBreak (c : Char) : Bool :=
  c == '\n' || c == '\r' || c == '\x0b' || c == '\x0c' ||
  c == '\x1c' || c == '\x1d' || c == '\x1e' || c == '\x85' ||
  c == '\u2028' || c == '\u2029'

/-- Python str.splitlines: split at terminators ("\r\n" counts once), with no
trailing empty line for a trailing terminator and [] for the empty string. -/
def splitLinesAux : List Char → List Char → List (List Char)
  | [], acc => if acc.isEmpty then [] else [acc.reverse]
  | '\r' :: '\n' :: rest, acc => acc.reverse :: splitLinesAux rest []
  | '\r' :: rest, acc => acc.reverse :: splitLinesAux rest []
  | c :: rest, acc =>
      if isLineBreak c then acc.reverse :: splitLinesAux rest []
      else splitLinesAux rest (c :: acc)

def splitLines (l : List Char) : List (List Char) :=
  splitLinesAux l []

/-- parse_pseudocode (source lines 6-69): fold the loop body over the lines. -/
def parse_pseudocode (pseudocode : String) : List Component :=
  (splitLines pseudocode.toList).foldl parseLine []

/-! ### Screen document synthesis (generate_screen1_scm) -/

/-- Decimal digit character. -/
def digitChar (n : Nat) : Char :=
  Char.ofNat (48 + n)

/-- Fuel-driven decimal rendering, most significant digit first. -/
def natDecimalAux : Nat → Nat → List Char
  | 0, _ => []
  | fuel + 1, n =>
      if n < 10 then [digitChar n]
      else natDecimalAux fuel (n / 10) ++ [digitChar (n % 10)]

/-- Python str(n) for a natural number (fuel n+1 always suffices). -/
def natDecimal (n : Nat) : List Char :=
  natDecimalAux (n + 1) n

/-- `str(random.randint(1000000000, 9999999999))` with the random draw made
an explicit argument. -/
def uuidString (n : Nat) : String :=
  String.mk (natDecimal n)

/-- The clean-up loop body (source lines 126-133): drop the absolute Width when
a WidthPercent is present, then add the $Version and Uuid fields. -/
def cleanComp (u : Nat) (c : Component) : Component :=
  let c1 := if hasKey c "WidthPercent" && hasKey c "Width" then delKey c "Width" else c
  let c2 := setKey c1 "$Version" (.str "7")
  setKey c2 "Uuid" (.str (uuidString u))

/-- The clean-up loop: the i-th component consumes the i-th random draw. -/
def cleanup (supply : Nat → Nat) : Nat → List Component → List Component
  | _, [] => []
  | i, c :: rest => cleanComp (supply i) c :: cleanup supply (i + 1) rest

/-- The default StatusLabel dict (source lines 140-149). -/
def statusLabelComp : Component :=
  [("$Name", .str "StatusLabel"), ("$Type", .str "Label"), ("$Version", .str "7"),
   ("Text", .str "No button clicked yet"), ("Width", .int (-2)), ("FontSize", .int 18),
   ("TextAlignment", .int 1), ("Uuid", .str "123456789")]

/-- The default ResetButton dict (source lines 154-165). -/
def resetButtonComp : Component :=
  [("$Name", .str "ResetButton"), ("$Type", .str "Button"), ("$Version", .str "7"),
   ("Text", .str "Reset"), ("WidthPercent", .int 80), ("Height", .int 50),
   ("BackgroundColor", .int (-16776961)), ("TextColor", .int (-1)), ("FontSize", .int 16),
   ("Uuid", .str "987654321")]

/-- The screen_data dict (source lines 169-185); the Properties keys $Name,
$Type, $Version, Title, Uuid, AppName, AlignHorizontal, AlignVertical,
BackgroundColor and $Components become the fields below. -/
structure ScreenDoc where
  authURL : List String
  yaVersion : String
  source : String
  propName : String
  propType : String
  propVersion : String
  title : String
  uuid : String
  appName : String
  alignHorizontal : Int
  alignVertical : Int
  backgroundColor : Int
  components : List Component
deriving DecidableEq

/-- generate_screen1_scm (source lines 115-190), up to the structured document:
parse (guarded by Python truthiness of the argument), clean up, inject the two
defaults when their names are absent from the user components, wrap. -/
def generate_screen1_scm (supply : Nat → Nat) (project_name pseudocode : String) : ScreenDoc :=
  let parsed := if pseudocode = "" then [] else parse_pseudocode pseudocode
  let cleaned := cleanup supply 0 parsed
  let user_component_names := cleaned.map compName
  let withStatus :=
    if some (Value.str "StatusLabel") ∈ user_component_names then cleaned
    else cleaned ++ [statusLabelComp]
  let comps :=
    if some (Value.str "ResetButton") ∈ user_component_names then withStatus
    else withStatus ++ [resetButtonComp]
  { authURL := ["ai2.appinventor.mit.edu"], yaVersion := "232", source := "Form",
    propName := "Screen1", propType := "Form", propVersion := "31",
    title := "12 Button App", uuid := "0", appName := project_name,
    alignHorizontal := 3, alignVertical := 2, backgroundColor := -3355444,
    components := comps }

/-- The component list of the synthesized screen for the fixed project name
used by generate_aia_from_pseudocode. -/
def generate_components (supply : Nat → Nat) (pseudocode : String) : List Component :=
  (generate_screen1_scm supply "ButtonApp" pseudocode).components

/-- generate_screen1_bky (source lines 192-193). -/
def generate_screen1_bky (_project_name : String) : String :=
  "\x7b\n  \"blocks\": []\n\x7d"

/-- The project.properties text (source lines 78-95). -/
def project_properties_text : String :=
  "#Sat Jul 19 20:00:00 UTC 2025\nsizing=Responsive\ncolor.primary.dark=&HFF303F9F\ncolor.primary=&HFF3F51B5\ncolor.accent=&HFFFF4081\naname=ButtonApp\ndefaultfilescope=App\nmain=appinventor.ai_user.ButtonApp.Screen1\nsource=../src\nactionbar=True\nuseslocation=False\nassets=../assets\nbuild=../build\nname=ButtonApp\nshowlistsasjson=True\ntheme=AppTheme.Light.DarkActionBar\nversioncode=1\nversionname=1.0\n"

/-- The youngandroidproject/project.properties text (source lines 96-105). -/
def youngandroid_project_properties_text : String :=
  "#|$YOUNG_ANDROID_PROJECT_PROPERTIES$|#\nproject=ButtonApp\nmain=Screen1\nusesLocation=false\nassets=\nsource=\nscm=\nextension=\nbuild=\nversion=1\n"

/-- One named entry of the produced zip archive: a plain text file or the
structured screen document. -/
inductive AiaEntry where
  | textFile (content : String)
  | scmFile (doc : ScreenDoc)
deriving DecidableEq

/-- generate_aia_from_pseudocode (source lines 71-113), modelled down to the
list of named archive entries written into the zip container. -/
def generate_aia_from_pseudocode (supply : Nat → Nat) (pseudocode : String) :
    List (String × AiaEntry) :=
  let project_name := "ButtonApp"
  [("project.properties", .textFile project_properties_text),
   ("youngandroidproject/project.properties", .textFile youngandroid_project_properties_text),
   ("src/" ++ project_name ++ "/Screen1.scm",
     .scmFile (generate_screen1_scm supply project_name pseudocode)),
   ("src/" ++ project_name ++ "/Screen1.bky", .textFile (generate_screen1_bky project_name))]

/-! ### Unknown-vocabulary detector (find_unknown_components) -/

/-- The default known_components set (source line 197). -/
def knownComponentsDefault : List String :=
  ["Button", "Label", "VerticalArrangement", "Notifier", "Screen",
   "ResetButton", "StatusLabel", "ButtonContainer"]

/-- `re.match(r'(Add|Set|When)\s+([A-Za-z0-9_]+)', line)`: keyword, at least one
whitespace, then the subject identifier. -/
def detectorSubject (l : List Char) : Option String :=
  let tryKw := fun (kw : String) =>
    match matchLit kw.toList l with
    | none => none
    | some rest =>
        let ws := rest.takeWhile isPyWhitespace
        let rest2 := rest.dropWhile isPyWhitespace
        if ws.isEmpty then none
        else
          let name := rest2.takeWhile isIdentChar
          if name.isEmpty then none else some (String.mk name)
  match tryKw "Add" with
  | some s => some s
  | none =>
    match tryKw "Set" with
    | some s => some s
    | none => tryKw "When"

/-- `re.sub(r'\d+$', '', comp)`: strip the trailing digit run. -/
def stripTrailingDigits (s : String) : String :=
  String.mk ((s.toList.reverse.dropWhile Char.isDigit).reverse)

/-- The loop body of find_unknown_components on one raw line (source lines
200-211); the accumulated set is a duplicate-free list. -/
def detectLine (unknown : List String) (line : List Char) : List String :=
  let l := pyStrip line
  if startsWith "For ".toList l || startsWith "Define Global".toList l ||
      startsWith "Set Global".toList l then unknown
  else
    match detectorSubject l with
    | none => unknown
    | some comp =>
        if comp = "" || comp.length = 1 || comp = "Global" || comp = "Button_i" then unknown
        else
          let base := stripTrailingDigits comp
          if base ∈ knownComponentsDefault then unknown
          else if base ∈ unknown then unknown
          else unknown ++ [base]

/-- find_unknown_components (source lines 195-212) with the default
known_components set. -/
def find_unknown_components (pseudocode : String) : List String :=
  (splitLines pseudocode.toList).foldl detectLine []

/-- A concrete random supply used to instantiate theorems at closed inputs. -/
def fixedSupply : Nat → Nat :=
  fun _ => 1234567890

/-- A component with its random Uuid field removed, for comparisons that
exclude the non-deterministic identifier. -/
def eraseUuid (c : Component) : Component :=
  delKey c "Uuid"

/-- How many descriptors in cs carry $Name = n. -/
def countName (cs : List Component) (n : String) : Nat :=
  (cs.filter (fun c => decide (compName c = some (.str n)))).length

/-- Whether a classified statement is an Add declaring the name n. -/
def stmtAddsName : Stmt → String → Bool
  | .addButton m, n => decide (m = n)
  | .addLabel m, n => decide (m = n)
  | _, _ => false

/-- How many lines of the input are Add statements declaring the name n. -/
def countAddLines (pseudocode : String) (n : String) : Nat :=
  ((splitLines pseudocode.toList).filter
    (fun l => stmtAddsName (classify (pyStrip l)) n)).length

end AiaGen

namespace AiaGen

theorem lookupKey_setKey_self (c : Component) (k : String) (v : Value) :
    lookupKey (setKey c k v) k = some v := by
  induction c with
  | nil => simp [setKey, lookupKey]
  | cons p rest ih =>
      obtain ⟨k', v'⟩ := p
      by_cases h : k' = k
      · subst h; simp [setKey, lookupKey]
      · simp [setKey, lookupKey, h, ih]

theorem lookupKey_setKey_ne (c : Component) {k k' : String} (v : Value) (h : k ≠ k') :
    lookupKey (setKey c k v) k' = lookupKey c k' := by
  induction c with
  | nil => simp [setKey, lookupKey, h]
  | cons p rest ih =>
      obtain ⟨a, b⟩ := p
      by_cases ha : a = k
      · subst ha; simp [setKey, lookupKey, h]
      · simp [setKey, lookupKey, ha, ih]

theorem lookupKey_delKey_ne (c : Component) {k k' : String} (h : k ≠ k') :
    lookupKey (delKey c k) k' = lookupKey c k' := by
  induction c with
  | nil => simp [delKey, lookupKey]
  | cons p rest ih =>
      obtain ⟨a, b⟩ := p
      by_cases ha : a = k
      · subst ha
        have : a ≠ k' := h
        simp_all [delKey, lookupKey]
      · by_cases hb : a = k'
        · subst hb; simp_all [delKey, lookupKey]
        · simp_all [delKey, lookupKey]

theorem lookupKey_delKey_self (c : Component) (k : String) :
    lookupKey (delKey c k) k = none := by
  induction c with
  | nil => simp [delKey, lookupKey]
  | cons p rest ih =>
      obtain ⟨a, b⟩ := p
      by_cases ha : a = k
      · subst ha; simp_all [delKey, lookupKey]
      · simp_all [delKey, lookupKey]

theorem hasKey_delKey_self (c : Component) (k : String) :
    hasKey (delKey c k) k = false := by
  simp [hasKey, lookupKey_delKey_self]

theorem hasKey_setKey_ne (c : Component) {k k' : String} (v : Value) (h : k ≠ k') :
    hasKey (setKey c k v) k' = hasKey c k' := by
  simp [hasKey, lookupKey_setKey_ne c v h]

theorem delKey_cons (a : String) (b : Value) (rest : Component) (k : String) :
    delKey ((a, b) :: rest) k = if a = k then delKey rest k else (a, b) :: delKey rest k := by
  by_cases h : a = k <;> simp [delKey, List.filter_cons, h]

theorem delKey_setKey_self (c : Component) (k : String) (v : Value) :
    delKey (setKey c k v) k = delKey c k := by
  induction c with
  | nil => simp [setKey, delKey]
  | cons p rest ih =>
      obtain ⟨a, b⟩ := p
      by_cases ha : a = k
      · subst ha; simp [setKey, delKey_cons]
      · simp [setKey, ha, delKey_cons, ih]

theorem compName_cleanComp (u : Nat) (c : Component) :
    compName (cleanComp u c) = compName c := by
  have h1 : ("Uuid" : String) ≠ "$Name" := by decide
  have h2 : ("$Version" : String) ≠ "$Name" := by decide
  have h3 : ("Width" : String) ≠ "$Name" := by decide
  simp only [cleanComp, compName]
  rw [lookupKey_setKey_ne _ _ h1, lookupKey_setKey_ne _ _ h2]
  by_cases hb : (hasKey c "WidthPercent" && hasKey c "Width") = true
  · simp [hb, lookupKey_delKey_ne _ h3]
  · simp [hb]

theorem cleanup_map_compName (s : Nat → Nat) (l : List Component) :
    ∀ i, (cleanup s i l).map compName = l.map compName := by
  induction l with
  | nil => intro i; simp [cleanup]
  | cons a rest ih => intro i; simp [cleanup, compName_cleanComp, ih]

theorem mem_cleanup {c : Component} {s : Nat → Nat} {l : List Component} :
    ∀ {i}, c ∈ cleanup s i l → ∃ j c₀, c₀ ∈ l ∧ c = cleanComp (s j) c₀ := by
  induction l with
  | nil => intro i h; simp [cleanup] at h
  | cons a rest ih =>
      intro i h
      simp only [cleanup, List.mem_cons] at h
      rcases h with h | h
      · exact ⟨i, a, List.mem_cons_self a rest, h⟩
      · obtain ⟨j, c₀, hmem, he⟩ := ih h
        exact ⟨j, c₀, List.mem_cons_of_mem _ hmem, he⟩

theorem eraseUuid_cleanComp (u u' : Nat) (c : Component) :
    eraseUuid (cleanComp u c) = eraseUuid (cleanComp u' c) := by
  simp [eraseUuid, cleanComp, delKey_setKey_self]

theorem cleanup_map_eraseUuid (s s' : Nat → Nat) (l : List Component) :
    ∀ i j, (cleanup s i l).map eraseUuid = (cleanup s' j l).map eraseUuid := by
  induction l with
  | nil => intro i j; simp [cleanup]
  | cons a rest ih =>
      intro i j
      simp only [cleanup, List.map_cons]
      rw [eraseUuid_cleanComp (s i) (s' j), ih (i + 1) (j + 1)]

theorem parse_pseudocode_empty : parse_pseudocode "" = [] := rfl

theorem generate_components_eq (s : Nat → Nat) (t : String) :
    generate_components s t =
      cleanup s 0 (parse_pseudocode t)
        ++ (if some (Value.str "StatusLabel") ∈ (parse_pseudocode t).map compName
            then [] else [statusLabelComp])
        ++ (if some (Value.str "ResetButton") ∈ (parse_pseudocode t).map compName
            then [] else [resetButtonComp]) := by
  unfold generate_components generate_screen1_scm
  by_cases h : t = ""
  · subst h
    rw [parse_pseudocode_empty, if_pos rfl]
    simp [cleanup]
  · simp only [if_neg h]
    rw [cleanup_map_compName]
    by_cases h1 : some (Value.str "StatusLabel") ∈ (parse_pseudocode t).map compName <;>
      by_cases h2 : some (Value.str "ResetButton") ∈ (parse_pseudocode t).map compName <;>
        simp [h1, h2]

theorem sentinels_present (s : Nat → Nat) (t : String) :
    (∃ c ∈ generate_components s t, compName c = some (.str "StatusLabel")) ∧
    (∃ c ∈ generate_components s t, compName c = some (.str "ResetButton")) := by
  have hgen := generate_components_eq s t
  constructor
  · by_cases h1 : some (Value.str "StatusLabel") ∈ (parse_pseudocode t).map compName
    · have hm : some (Value.str "StatusLabel") ∈
          (cleanup s 0 (parse_pseudocode t)).map compName := by
        rw [cleanup_map_compName]; exact h1
      obtain ⟨c, hc, hname⟩ := List.mem_map.mp hm
      exact ⟨c, by
        rw [hgen]; exact List.mem_append_left _ (List.mem_append_left _ hc), hname⟩
    · refine ⟨statusLabelComp, ?_, by decide⟩
      rw [hgen]
      exact List.mem_append_left _ (List.mem_append_right _ (by simp [h1]))
  · by_cases h2 : some (Value.str "ResetButton") ∈ (parse_pseudocode t).map compName
    · have hm : some (Value.str "ResetButton") ∈
          (cleanup s 0 (parse_pseudocode t)).map compName := by
        rw [cleanup_map_compName]; exact h2
      obtain ⟨c, hc, hname⟩ := List.mem_map.mp hm
      exact ⟨c, by
        rw [hgen]; exact List.mem_append_left _ (List.mem_append_left _ hc), hname⟩
    · refine ⟨resetButtonComp, ?_, by decide⟩
      rw [hgen]
      exact List.mem_append_right _ (by simp [h2])


theorem cleanComp_hasKey_width (u : Nat) (c : Component) :
    hasKey (cleanComp u c) "Width"
      = hasKey (if hasKey c "WidthPercent" && hasKey c "Width" then delKey c "Width" else c)
          "Width" := by
  simp only [cleanComp]
  rw [hasKey_setKey_ne _ _ (by decide : ("Uuid" : String) ≠ "Width"),
      hasKey_setKey_ne _ _ (by decide : ("$Version" : String) ≠ "Width")]

theorem cleanComp_hasKey_widthPercent (u : Nat) (c : Component) :
    hasKey (cleanComp u c) "WidthPercent"
      = hasKey (if hasKey c "WidthPercent" && hasKey c "Width" then delKey c "Width" else c)
          "WidthPercent" := by
  simp only [cleanComp]
  rw [hasKey_setKey_ne _ _ (by decide : ("Uuid" : String) ≠ "WidthPercent"),
      hasKey_setKey_ne _ _ (by decide : ("$Version" : String) ≠ "WidthPercent")]

theorem cleanComp_width_exclusive (u : Nat) (c : Component) :
    ¬(hasKey (cleanComp u c) "Width" = true ∧ hasKey (cleanComp u c) "WidthPercent" = true) := by
  rintro ⟨hw, hwp⟩
  rw [cleanComp_hasKey_width] at hw
  by_cases hb : (hasKey c "WidthPercent" && hasKey c "Width") = true
  · rw [if_pos hb, hasKey_delKey_self] at hw
    exact Bool.false_ne_true hw
  · rw [if_neg hb] at hw
    rw [cleanComp_hasKey_widthPercent, if_neg hb] at hwp
    exact hb (by simp [hw, hwp])

theorem countName_append (cs ds : List Component) (n : String) :
    countName (cs ++ ds) n = countName cs n + countName ds n := by
  simp [countName, List.filter_append]

theorem countName_eq_of_map {cs ds : List Component}
    (h : cs.map compName = ds.map compName) (n : String) :
    countName cs n = countName ds n := by
  have key : ∀ es : List Component,
      countName es n = (es.map compName).countP (fun v => decide (v = some (.str n))) := by
    intro es
    rw [countName, List.countP_map, List.countP_eq_length_filter]
    rfl
  rw [key cs, key ds, h]

theorem updLast_map_compName (cs : List Component) (n : String) (f : Component → Component)
    (hf : ∀ c, compName (f c) = compName c) :
    (updLast cs n f).map compName = cs.map compName := by
  induction cs with
  | nil => simp [updLast]
  | cons c rest ih =>
      by_cases hd : declared rest n
      · simp [updLast, hd, ih]
      · by_cases hc : compName c = some (.str n)
        · simp [updLast, hd, hc, hf]
        · simp [updLast, hd, hc, ih]

theorem compName_setKey_ne (c : Component) {k : String} (v : Value) (h : k ≠ "$Name") :
    compName (setKey c k v) = compName c := by
  simp [compName, lookupKey_setKey_ne c v h]

theorem countName_updLast_set (cs : List Component) (m n k : String) (v : Value)
    (hk : k ≠ "$Name") :
    countName (updLast cs m (fun c => setKey c k v)) n = countName cs n :=
  countName_eq_of_map (updLast_map_compName cs m _ (fun c => compName_setKey_ne c v hk)) n

theorem countName_applyStmt (cs : List Component) (st : Stmt) (n : String) :
    countName (applyStmt cs st) n = countName cs n + (stmtAddsName st n).toNat := by
  cases st with
  | addButton m =>
      rw [applyStmt, countName_append]
      by_cases h : m = n <;>
        simp [countName, buttonDefaults, compName, lookupKey, stmtAddsName, h]
  | addLabel m =>
      rw [applyStmt, countName_append]
      by_cases h : m = n <;>
        simp [countName, labelDefaults, compName, lookupKey, stmtAddsName, h]
  | setText m t =>
      by_cases hd : declared cs m <;>
        simp [applyStmt, hd, stmtAddsName,
          countName_updLast_set cs m n "Text" (.str t) (by decide)]
  | setWidth m r =>
      by_cases hd : declared cs m
      · by_cases hp : containsPercent r = true
        · cases he : extractInt r <;>
            simp [applyStmt, hd, hp, he, stmtAddsName,
              countName_updLast_set cs m n "WidthPercent" _ (by decide)]
        · cases he : extractInt r <;>
            simp [applyStmt, hd, hp, he, stmtAddsName,
              countName_updLast_set cs m n "Width" _ (by decide)]
      · simp [applyStmt, hd, stmtAddsName]
  | setHeight m r =>
      cases he : extractInt r
      · simp [applyStmt, he, stmtAddsName]
      · by_cases hd : declared cs m <;>
          simp [applyStmt, hd, he, stmtAddsName,
            countName_updLast_set cs m n "Height" _ (by decide)]
  | noMatch => simp [applyStmt, stmtAddsName]

theorem countName_foldl (n : String) (lines : List (List Char)) :
    ∀ cs : List Component,
      countName (lines.foldl parseLine cs) n =
        countName cs n
          + (lines.filter (fun l => stmtAddsName (classify (pyStrip l)) n)).length := by
  induction lines with
  | nil => intro cs; simp
  | cons l rest ih =>
      intro cs
      rw [List.foldl_cons, ih, parseLine, countName_applyStmt, List.filter_cons]
      by_cases h : stmtAddsName (classify (pyStrip l)) n = true
      · simp [h]
        omega
      · simp [h]


theorem digitChar_isDigit {d : Nat} (h : d < 10) : (digitChar d).isDigit = true := by
  interval_cases d <;> decide

theorem natDecimalAux_length :
    ∀ (k fuel n : Nat), k < fuel → 10 ^ k ≤ n → n < 10 ^ (k + 1) →
      (natDecimalAux fuel n).length = k + 1 := by
  intro k
  induction k with
  | zero =>
      intro fuel n hf h1 h2
      cases fuel with
      | zero => omega
      | succ f =>
          have hn : n < 10 := by simpa using h2
          simp [natDecimalAux, hn]
  | succ k ih =>
      intro fuel n hf h1 h2
      cases fuel with
      | zero => omega
      | succ f =>
          have hn : ¬ n < 10 := by
            have : (10 : Nat) ^ 1 ≤ 10 ^ (k + 1) := Nat.pow_le_pow_right (by omega) (by omega)
            simp only [Nat.pow_one] at this
            omega
          have hlow : 10 ^ k ≤ n / 10 := by
            rw [Nat.le_div_iff_mul_le (by omega : 0 < 10)]
            calc 10 ^ k * 10 = 10 ^ (k + 1) := by rw [Nat.pow_succ]
            _ ≤ n := h1
          have hhigh : n / 10 < 10 ^ (k + 1) := by
            rw [Nat.div_lt_iff_lt_mul (by omega : 0 < 10)]
            calc n < 10 ^ (k + 2) := h2
            _ = 10 ^ (k + 1) * 10 := by rw [Nat.pow_succ]
          simp only [natDecimalAux, if_neg hn, List.length_append, List.length_cons,
            List.length_nil]
          rw [ih f (n / 10) (by omega) hlow hhigh]
  
theorem natDecimalAux_all_digits :
    ∀ (fuel n : Nat), (natDecimalAux fuel n).all Char.isDigit = true := by
  intro fuel
  induction fuel with
  | zero => intro n; simp [natDecimalAux]
  | succ f ih =>
      intro n
      by_cases hn : n < 10
      · simp [natDecimalAux, hn, digitChar_isDigit]
      · have hm : n % 10 < 10 := Nat.mod_lt _ (by omega)
        simp [natDecimalAux, hn, ih, digitChar_isDigit hm]

theorem uuidString_ten_digits {n : Nat} (h1 : 1000000000 ≤ n) (h2 : n ≤ 9999999999) :
    (uuidString n).length = 10 ∧ (uuidString n).toList.all Char.isDigit = true := by
  have hlen : (natDecimal n).length = 10 := by
    have := natDecimalAux_length 9 (n + 1) n (by omega) (by norm_num; omega) (by norm_num; omega)
    simpa [natDecimal] using this
  refine ⟨?_, ?_⟩
  · show (String.mk (natDecimal n)).length = 10
    simpa [String.length] using hlen
  · show (String.mk (natDecimal n)).toList.all Char.isDigit = true
    simpa using natDecimalAux_all_digits (n + 1) n

theorem lookupKey_cleanComp_uuid (u : Nat) (c : Component) :
    lookupKey (cleanComp u c) "Uuid" = some (.str (uuidString u)) := by
  simp only [cleanComp]
  rw [lookupKey_setKey_self]

theorem lookupKey_cleanComp_version (u : Nat) (c : Component) :
    lookupKey (cleanComp u c) "$Version" = some (.str "7") := by
  simp only [cleanComp]
  rw [lookupKey_setKey_ne _ _ (by decide : ("Uuid" : String) ≠ "$Version"),
      lookupKey_setKey_self]

theorem declared_eq_false_iff (cs : List Component) (n : String) :
    declared cs n = false ↔ ∀ c ∈ cs, compName c ≠ some (.str n) := by
  simp [declared]

theorem updLast_append_last {c : Component} {n : String} (cs₁ cs₂ : List Component)
    (f : Component → Component) (hc : compName c = some (.str n))
    (h2 : ∀ d ∈ cs₂, compName d ≠ some (.str n)) :
    updLast (cs₁ ++ c :: cs₂) n f = cs₁ ++ f c :: cs₂ := by
  induction cs₁ with
  | nil =>
      have hd2 : declared cs₂ n = false := (declared_eq_false_iff cs₂ n).mpr h2
      simp [updLast, hd2, hc]
  | cons a rest ih =>
      have hd : declared (rest ++ c :: cs₂) n = true := by
        simp [declared]
        exact Or.inr (Or.inl hc)
      simp [updLast, hd, ih]


theorem detectLine_eq_skip {l : List Char} (acc : List String)
    (hskip : (startsWith "For ".toList (pyStrip l)
      || startsWith "Define Global".toList (pyStrip l)
      || startsWith "Set Global".toList (pyStrip l)) = true) :
    detectLine acc l = acc := by
  simp only [detectLine]
  rw [if_pos hskip]

theorem detectLine_eq_none {l : List Char} (acc : List String)
    (hskip : ¬ (startsWith "For ".toList (pyStrip l)
      || startsWith "Define Global".toList (pyStrip l)
      || startsWith "Set Global".toList (pyStrip l)) = true)
    (hd : detectorSubject (pyStrip l) = none) :
    detectLine acc l = acc := by
  simp only [detectLine]
  rw [if_neg hskip, hd]

theorem detectLine_eq_subject {l : List Char} {comp : String} (acc : List String)
    (hskip : ¬ (startsWith "For ".toList (pyStrip l)
      || startsWith "Define Global".toList (pyStrip l)
      || startsWith "Set Global".toList (pyStrip l)) = true)
    (hd : detectorSubject (pyStrip l) = some comp) :
    detectLine acc l =
      if (decide (comp = "") || decide (comp.length = 1)
          || decide (comp = "Global") || decide (comp = "Button_i")) = true then acc
      else if stripTrailingDigits comp ∈ knownComponentsDefault then acc
      else if stripTrailingDigits comp ∈ acc then acc
      else acc ++ [stripTrailingDigits comp] := by
  simp only [detectLine]
  rw [if_neg hskip, hd]

theorem detectLine_preserves {b : String} {acc : List String} (l : List Char) (h : b ∈ acc) :
    b ∈ detectLine acc l := by
  by_cases hskip : (startsWith "For ".toList (pyStrip l)
      || startsWith "Define Global".toList (pyStrip l)
      || startsWith "Set Global".toList (pyStrip l)) = true
  · rw [detectLine_eq_skip acc hskip]; exact h
  · cases hd : detectorSubject (pyStrip l) with
    | none => rw [detectLine_eq_none acc hskip hd]; exact h
    | some comp =>
        rw [detectLine_eq_subject acc hskip hd]
        by_cases hf : (decide (comp = "") || decide (comp.length = 1)
            || decide (comp = "Global") || decide (comp = "Button_i")) = true
        · rw [if_pos hf]; exact h
        · rw [if_neg hf]
          by_cases hk : stripTrailingDigits comp ∈ knownComponentsDefault
          · rw [if_pos hk]; exact h
          · rw [if_neg hk]
            by_cases ha : stripTrailingDigits comp ∈ acc
            · rw [if_pos ha]; exact h
            · rw [if_neg ha]; exact List.mem_append_left _ h

theorem foldl_detectLine_preserves {b : String} :
    ∀ (lines : List (List Char)) (acc : List String),
      b ∈ acc → b ∈ lines.foldl detectLine acc := by
  intro lines
  induction lines with
  | nil => intro acc h; simpa using h
  | cons l rest ih => intro acc h; exact ih _ (detectLine_preserves l h)

theorem detectLine_adds {l : List Char} {subj : String}
    (h1 : startsWith "For ".toList (pyStrip l) = false)
    (h2 : startsWith "Define Global".toList (pyStrip l) = false)
    (h3 : startsWith "Set Global".toList (pyStrip l) = false)
    (hsub : detectorSubject (pyStrip l) = some subj)
    (hne : subj ≠ "") (hlen : subj.length ≠ 1) (hg : subj ≠ "Global")
    (hbi : subj ≠ "Button_i")
    (hknown : stripTrailingDigits subj ∉ knownComponentsDefault) (acc : List String) :
    stripTrailingDigits subj ∈ detectLine acc l := by
  have hskip : ¬ (startsWith "For ".toList (pyStrip l)
      || startsWith "Define Global".toList (pyStrip l)
      || startsWith "Set Global".toList (pyStrip l)) = true := by
    rw [h1, h2, h3]; decide
  have d1 : decide (subj = "") = false := by simp [hne]
  have d2 : decide (subj.length = 1) = false := by simp [hlen]
  have d3 : decide (subj = "Global") = false := by simp [hg]
  have d4 : decide (subj = "Button_i") = false := by simp [hbi]
  rw [detectLine_eq_subject acc hskip hsub]
  have hf : ¬ (decide (subj = "") || decide (subj.length = 1)
      || decide (subj = "Global") || decide (subj = "Button_i")) = true := by
    rw [d1, d2, d3, d4]; decide
  rw [if_neg hf, if_neg hknown]
  by_cases ha : stripTrailingDigits subj ∈ acc
  · rw [if_pos ha]; exact ha
  · rw [if_neg ha]; exact List.mem_append_right _ (List.mem_singleton.mpr rfl)

theorem find_unknown_reaches {t : String} {line : List Char} {subj : String}
    (hmem : line ∈ splitLines t.toList)
    (h1 : startsWith "For ".toList (pyStrip line) = false)
    (h2 : startsWith "Define Global".toList (pyStrip line) = false)
    (h3 : startsWith "Set Global".toList (pyStrip line) = false)
    (hsub : detectorSubject (pyStrip line) = some subj)
    (hne : subj ≠ "") (hlen : subj.length ≠ 1) (hg : subj ≠ "Global")
    (hbi : subj ≠ "Button_i")
    (hknown : stripTrailingDigits subj ∉ knownComponentsDefault) :
    stripTrailingDigits subj ∈ find_unknown_components t := by
  obtain ⟨pre, post, hsplit⟩ := List.append_of_mem hmem
  unfold find_unknown_components
  rw [hsplit, List.foldl_append, List.foldl_cons]
  exact foldl_detectLine_preserves post _
    (detectLine_adds h1 h2 h3 hsub hne hlen hg hbi hknown _)


/-! ### Claim theorems -/

/-- C1 counterexample: two `Add Button (Name: X)` statements yield TWO descriptors
named X in the output component list, not one — the parser has no duplicate check,
so a later Add with an already-declared name is not a no-op. -/
theorem C1_counterexample :
    countName (generate_components fixedSupply
      "Add Button (Name: X)\nAdd Button (Name: X)") "X" = 2 := by
  decide

/-- C1 (amended): every Add statement appends one descriptor, so the number of
descriptors named n equals the number of Add lines declaring n (duplicates
included); and a Set statement mutates the most recently declared descriptor
carrying the target name (the last list entry with that name), not the first. -/
theorem C1_add_appends_per_declaration :
    (∀ (t n : String), countName (parse_pseudocode t) n = countAddLines t n) ∧
    (∀ (cs₁ cs₂ : List Component) (c : Component) (n : String) (f : Component → Component),
      compName c = some (.str n) → (∀ d ∈ cs₂, compName d ≠ some (.str n)) →
      updLast (cs₁ ++ c :: cs₂) n f = cs₁ ++ f c :: cs₂) := by
  constructor
  · intro t n
    rw [parse_pseudocode, countName_foldl, countAddLines]
    simp [countName]
  · intro cs₁ cs₂ c n f hc h2
    exact updLast_append_last cs₁ cs₂ f hc h2

/-- C1 witness: the amended claim at the duplicated input. -/
theorem C1_add_appends_per_declaration_witness :
    countName (parse_pseudocode "Add Button (Name: X)\nAdd Button (Name: X)") "X" =
      countAddLines "Add Button (Name: X)\nAdd Button (Name: X)" "X" ∧
    updLast ([buttonDefaults "X"] ++ buttonDefaults "X" :: []) "X"
        (fun c => setKey c "Text" (.str "hi")) =
      [buttonDefaults "X"] ++ setKey (buttonDefaults "X") "Text" (.str "hi") :: [] :=
  ⟨C1_add_appends_per_declaration.1 _ "X",
   C1_add_appends_per_declaration.2 [buttonDefaults "X"] [] (buttonDefaults "X") "X" _
     (by decide) (by simp)⟩

/-- C2: no component of the final screen document carries both Width and
WidthPercent; and when both were set during building, the clean-up step drops the
absolute Width and keeps the WidthPercent value unchanged. -/
theorem C2_width_mutual_exclusion :
    (∀ (s : Nat → Nat) (t : String) (c : Component), c ∈ generate_components s t →
      ¬(hasKey c "Width" = true ∧ hasKey c "WidthPercent" = true)) ∧
    (∀ (u : Nat) (c : Component), hasKey c "Width" = true → hasKey c "WidthPercent" = true →
      hasKey (cleanComp u c) "Width" = false ∧
      lookupKey (cleanComp u c) "WidthPercent" = lookupKey c "WidthPercent") := by
  constructor
  · intro s t c hc
    rw [generate_components_eq] at hc
    rcases List.mem_append.mp hc with hc | hc
    · rcases List.mem_append.mp hc with hc | hc
      · obtain ⟨j, c₀, _, rfl⟩ := mem_cleanup hc
        exact cleanComp_width_exclusive _ _
      · have hcs : c = statusLabelComp := by
          by_cases h : some (Value.str "StatusLabel") ∈ (parse_pseudocode t).map compName
          · rw [if_pos h] at hc; simp at hc
          · rw [if_neg h] at hc; simpa using hc
        subst hcs; decide
    · have hcr : c = resetButtonComp := by
        by_cases h : some (Value.str "ResetButton") ∈ (parse_pseudocode t).map compName
        · rw [if_pos h] at hc; simp at hc
        · rw [if_neg h] at hc; simpa using hc
      subst hcr; decide
  · intro u c hw hwp
    have hb : (hasKey c "WidthPercent" && hasKey c "Width") = true := by rw [hw, hwp]; rfl
    constructor
    · rw [cleanComp_hasKey_width, if_pos hb, hasKey_delKey_self]
    · simp only [cleanComp]
      rw [lookupKey_setKey_ne _ _ (by decide : ("Uuid" : String) ≠ "WidthPercent"),
          lookupKey_setKey_ne _ _ (by decide : ("$Version" : String) ≠ "WidthPercent"),
          if_pos hb,
          lookupKey_delKey_ne _ (by decide : ("Width" : String) ≠ "WidthPercent")]

/-- C2 witness: the theorem instantiated at a component of the empty-input output
and at a dict carrying both width keys. -/
theorem C2_width_mutual_exclusion_witness :
    ¬(hasKey statusLabelComp "Width" = true ∧ hasKey statusLabelComp "WidthPercent" = true) ∧
    (hasKey (cleanComp 1234567890 [("$Name", .str "A"), ("Width", .int (-2)),
        ("WidthPercent", .int 50)]) "Width" = false ∧
      lookupKey (cleanComp 1234567890 [("$Name", .str "A"), ("Width", .int (-2)),
        ("WidthPercent", .int 50)]) "WidthPercent" =
      lookupKey [("$Name", .str "A"), ("Width", .int (-2)), ("WidthPercent", .int 50)]
        "WidthPercent") :=
  ⟨C2_width_mutual_exclusion.1 fixedSupply "" statusLabelComp (by decide),
   C2_width_mutual_exclusion.2 1234567890 _ (by decide) (by decide)⟩

/-- C3: the output is the cleaned user components followed by the synthesized
StatusLabel and ResetButton exactly when those names were not declared; a
component named StatusLabel and one named ResetButton are always present; and the
empty input yields exactly the two sentinel defaults. -/
theorem C3_sentinel_defaults :
    (∀ (s : Nat → Nat) (t : String),
      generate_components s t =
        cleanup s 0 (parse_pseudocode t)
          ++ (if some (Value.str "StatusLabel") ∈ (parse_pseudocode t).map compName
              then [] else [statusLabelComp])
          ++ (if some (Value.str "ResetButton") ∈ (parse_pseudocode t).map compName
              then [] else [resetButtonComp])) ∧
    (∀ (s : Nat → Nat) (t : String),
      (∃ c ∈ generate_components s t, compName c = some (.str "StatusLabel")) ∧
      (∃ c ∈ generate_components s t, compName c = some (.str "ResetButton"))) ∧
    (∀ s : Nat → Nat, generate_components s "" = [statusLabelComp, resetButtonComp]) :=
  ⟨generate_components_eq, sentinels_present, fun _ => rfl⟩

/-- C4: compilation is total — the archive always holds the four fixed entries,
its screen document always contains both sentinel names, and a line matching no
template leaves the parser state unchanged. -/
theorem C4_total_and_permissive :
    (∀ (s : Nat → Nat) (t : String),
      (generate_aia_from_pseudocode s t).map Prod.fst =
        ["project.properties", "youngandroidproject/project.properties",
         "src/ButtonApp/Screen1.scm", "src/ButtonApp/Screen1.bky"]) ∧
    (∀ (s : Nat → Nat) (t : String), ∃ doc : ScreenDoc,
      ("src/ButtonApp/Screen1.scm", AiaEntry.scmFile doc) ∈ generate_aia_from_pseudocode s t ∧
      (∃ c ∈ doc.components, compName c = some (.str "StatusLabel")) ∧
      (∃ c ∈ doc.components, compName c = some (.str "ResetButton"))) ∧
    (∀ (cs : List Component) (line : List Char),
      classify (pyStrip line) = Stmt.noMatch → parseLine cs line = cs) := by
  refine ⟨fun s t => rfl, fun s t => ?_, fun cs line h => ?_⟩
  · refine ⟨generate_screen1_scm s "ButtonApp" t, ?_, ?_, ?_⟩
    · simp [generate_aia_from_pseudocode]
    · exact (sentinels_present s t).1
    · exact (sentinels_present s t).2
  · rw [parseLine, h]; rfl

/-- C4 witness: a comment line is a no-op on the parser state. -/
theorem C4_total_and_permissive_witness :
    parseLine [] ("# just a comment".toList) = [] :=
  C4_total_and_permissive.2.2 [] _ (by decide)

/-- C5: the three-line Go scenario produces exactly one Button named Go with
Text "Start", WidthPercent 50 and no Width key, followed by the synthesized
StatusLabel and ResetButton. -/
theorem C5_go_scenario (s : Nat → Nat) :
    generate_components s
        "Add Button (Name: Go)\nSet Go.Text to \"Start\"\nSet Go.Width to 50 percent" =
      [[("$Name", .str "Go"), ("$Type", .str "Button"), ("Text", .str "Start"),
        ("WidthPercent", .int 50), ("Height", .int 50), ("BackgroundColor", .int (-16776961)),
        ("TextColor", .int (-1)), ("FontSize", .int 16), ("$Version", .str "7"),
        ("Uuid", .str (uuidString (s 0)))],
       statusLabelComp, resetButtonComp] := rfl

/-- C6: a Set statement (Text, Width or Height) whose target was never declared
is a silent no-op and creates no component; the Ghost scenario yields only the
two sentinel defaults. -/
theorem C6_dangling_set_dropped :
    (∀ (cs : List Component) (n txt : String) (r₁ r₂ : List Char),
      declared cs n = false →
      applyStmt cs (.setText n txt) = cs ∧
      applyStmt cs (.setWidth n r₁) = cs ∧
      applyStmt cs (.setHeight n r₂) = cs) ∧
    (∀ s : Nat → Nat, generate_components s "Set Ghost.Text to \"X\"" =
      [statusLabelComp, resetButtonComp]) := by
  constructor
  · intro cs n txt r₁ r₂ h
    refine ⟨by simp [applyStmt, h], by simp [applyStmt, h], ?_⟩
    cases he : extractInt r₂ <;> simp [applyStmt, he, h]
  · intro s; rfl

/-- C6 witness: the theorem at the Ghost input. -/
theorem C6_dangling_set_dropped_witness :
    (applyStmt [] (.setText "Ghost" "X") = [] ∧
     applyStmt [] (.setWidth "Ghost" []) = [] ∧
     applyStmt [] (.setHeight "Ghost" []) = []) ∧
    generate_components fixedSupply "Set Ghost.Text to \"X\"" =
      [statusLabelComp, resetButtonComp] :=
  ⟨C6_dangling_set_dropped.1 [] "Ghost" "X" [] [] rfl,
   C6_dangling_set_dropped.2 fixedSupply⟩

/-- C7: a Set Width or Set Height statement whose raw value holds no integer
substring is a no-op for a declared component — the previous or default value is
retained and no error surfaces. -/
theorem C7_unparseable_value_noop :
    ∀ (cs : List Component) (n : String) (r : List Char),
      declared cs n = true → extractInt r = none →
      applyStmt cs (.setWidth n r) = cs ∧ applyStmt cs (.setHeight n r) = cs := by
  intro cs n r hd he
  constructor
  · by_cases hp : containsPercent r = true <;> simp [applyStmt, hd, hp, he]
  · simp [applyStmt, he]

/-- C7 witness: the raw value "percent" holds no digits, so both statements leave
the declared button untouched. -/
theorem C7_unparseable_value_noop_witness :
    applyStmt [buttonDefaults "B"] (.setWidth "B" ("percent".toList)) =
      [buttonDefaults "B"] ∧
    applyStmt [buttonDefaults "B"] (.setHeight "B" ("percent".toList)) =
      [buttonDefaults "B"] :=
  C7_unparseable_value_noop [buttonDefaults "B"] "B" ("percent".toList)
    (by decide) (by decide)

/-- C8: two runs of the pipeline on the same text agree on the component list in
content and order once the Uuid fields are removed. -/
theorem C8_deterministic_modulo_uuid (t : String) (s₁ s₂ : Nat → Nat) :
    (generate_components s₁ t).map eraseUuid = (generate_components s₂ t).map eraseUuid := by
  rw [generate_components_eq, generate_components_eq]
  simp only [List.map_append]
  rw [cleanup_map_eraseUuid s₁ s₂ _ 0 0]

/-- C9 counterexample: in the line `Set X.Text to "hi"` the detector finds the
subject X, whose base X is not in the allow-list, yet it reports nothing: the
single-character exclusion suppresses it, refuting the claim that every
Add/Set/When subject outside the allow-list is reported. -/
theorem C9_counterexample :
    detectorSubject (pyStrip "Set X.Text to \"hi\"".toList) = some "X" ∧
    stripTrailingDigits "X" = "X" ∧
    ("X" : String) ∉ knownComponentsDefault ∧
    find_unknown_components "Set X.Text to \"hi\"" = [] := by
  decide

/-- C9 (amended): the detector reports the digit-stripped base of an Add/Set/When
subject that is outside the allow-list — except that lines starting with "For ",
"Define Global" or "Set Global" are skipped and empty, single-character, "Global"
and "Button_i" subjects are ignored; in particular "Add Widget (Name: W)" reports
"Widget". -/
theorem C9_detector_reports_filtered (t : String) (line : List Char) (subj : String)
    (hmem : line ∈ splitLines t.toList)
    (h1 : startsWith "For ".toList (pyStrip line) = false)
    (h2 : startsWith "Define Global".toList (pyStrip line) = false)
    (h3 : startsWith "Set Global".toList (pyStrip line) = false)
    (hsub : detectorSubject (pyStrip line) = some subj)
    (hne : subj ≠ "") (hlen : subj.length ≠ 1) (hg : subj ≠ "Global")
    (hbi : subj ≠ "Button_i")
    (hknown : stripTrailingDigits subj ∉ knownComponentsDefault) :
    stripTrailingDigits subj ∈ find_unknown_components t ∧
    ("Widget" : String) ∈ find_unknown_components "Add Widget (Name: W)" :=
  ⟨find_unknown_reaches hmem h1 h2 h3 hsub hne hlen hg hbi hknown, by decide⟩

/-- C9 witness: the amended claim at the line `Add Widget2 (Name: W)`. -/
theorem C9_detector_reports_filtered_witness :
    stripTrailingDigits "Widget2" ∈ find_unknown_components "Add Widget2 (Name: W)" ∧
    ("Widget" : String) ∈ find_unknown_components "Add Widget (Name: W)" :=
  C9_detector_reports_filtered "Add Widget2 (Name: W)" ("Add Widget2 (Name: W)".toList)
    "Widget2" (by decide) (by decide) (by decide) (by decide) (by decide) (by decide)
    (by decide) (by decide) (by decide) (by decide)

/-- C10: every output component carries $Version "7" and a Uuid; a component is
either the injected StatusLabel with Uuid "123456789", the injected ResetButton
with Uuid "987654321", or a user component whose Uuid is the decimal rendering of
the random draw — a 10-digit string when the draw is in randint's range. -/
theorem C10_version_and_uuid_fields (s : Nat → Nat) (t : String)
    (hrange : ∀ i, 1000000000 ≤ s i ∧ s i ≤ 9999999999) :
    ∀ c ∈ generate_components s t,
      lookupKey c "$Version" = some (.str "7") ∧
      ∃ u : String, lookupKey c "Uuid" = some (.str u) ∧
        ((c = statusLabelComp ∧ u = "123456789") ∨
         (c = resetButtonComp ∧ u = "987654321") ∨
         (u.length = 10 ∧ u.toList.all Char.isDigit = true)) := by
  intro c hc
  rw [generate_components_eq] at hc
  rcases List.mem_append.mp hc with hc | hc
  · rcases List.mem_append.mp hc with hc | hc
    · obtain ⟨j, c₀, _, rfl⟩ := mem_cleanup hc
      refine ⟨lookupKey_cleanComp_version _ _, uuidString (s j),
        lookupKey_cleanComp_uuid _ _, Or.inr (Or.inr ?_)⟩
      exact uuidString_ten_digits (hrange j).1 (hrange j).2
    · have hcs : c = statusLabelComp := by
        by_cases h : some (Value.str "StatusLabel") ∈ (parse_pseudocode t).map compName
        · rw [if_pos h] at hc; simp at hc
        · rw [if_neg h] at hc; simpa using hc
      subst hcs
      exact ⟨by decide, "123456789", by decide, Or.inl ⟨rfl, rfl⟩⟩
  · have hcr : c = resetButtonComp := by
      by_cases h : some (Value.str "ResetButton") ∈ (parse_pseudocode t).map compName
      · rw [if_pos h] at hc; simp at hc
      · rw [if_neg h] at hc; simpa using hc
    subst hcr
    exact ⟨by decide, "987654321", by decide, Or.inr (Or.inl ⟨rfl, rfl⟩)⟩

/-- C10 witness: the theorem at the empty input and the fixed supply, evaluated
on the injected StatusLabel. -/
theorem C10_version_and_uuid_fields_witness :
    lookupKey statusLabelComp "$Version" = some (.str "7") ∧
    ∃ u : String, lookupKey statusLabelComp "Uuid" = some (.str u) ∧
      ((statusLabelComp = statusLabelComp ∧ u = "123456789") ∨
       (statusLabelComp = resetButtonComp ∧ u = "987654321") ∨
       (u.length = 10 ∧ u.toList.all Char.isDigit = true)) :=
  C10_version_and_uuid_fields fixedSupply ""
    (fun _ => ⟨by norm_num [fixedSupply], by norm_num [fixedSupply]⟩)
    statusLabelComp (by decide)

end AiaGen

